import Mathlib

/-!
Verification development for the docker-volume-backup sources: a shallow
embedding of the environment-variable compatibility layer, the custom
configuration decoders, the notification hook registration, the archive
filename resolution and the multi-strategy cron scheduler, together with
theorems settling the specified properties.
-/

set_option maxRecDepth 4096

namespace DVB

/-- The process environment, a partial map from variable names to values.
`none` means the variable is not present (distinct from the empty string). -/
abbrev Env := String → Option String

/-- Models os.Setenv. -/
def setEnv (e : Env) (k v : String) : Env :=
  fun q => if q = k then some v else e q

/-- Models os.Unsetenv. -/
def unsetEnv (e : Env) (k : String) : Env :=
  fun q => if q = k then none else e q

/-- Embeds the envVarLookup struct: the snapshot record appended before and
after each override. `ok` is the boolean returned by os.LookupEnv. -/
structure EnvVarLookup where
  ok : Bool
  key : String
  value : String

/-- Embeds the envVarMapping struct of the compatibility layer. The Go field
`from` is a Lean keyword, so it is written `from_` here. -/
structure EnvVarMapping where
  from_ : String
  to_ : String

/-- Result of one compatibility-layer operation: on success the list of
snapshots (from which Go builds the rollback closure) plus the environment
as left by the call; on failure the error message plus the environment as
left at the point of the early return (Go returns a nil rollback there). -/
inductive MapResult where
  | ok (lookups : List EnvVarLookup) (env : Env)
  | err (msg : String) (env : Env)

/-- The environment a compatibility-layer call leaves behind. -/
def MapResult.envOut : MapResult → Env
  | .ok _ e => e
  | .err _ e => e

/-- Whether the call returned an error. -/
def MapResult.isErr : MapResult → Bool
  | .ok _ _ => false
  | .err _ _ => true

/-- The snapshot list of a successful call; the Go code returns a nil
rollback on error, modelled as the empty list. -/
def MapResult.snapshots : MapResult → List EnvVarLookup
  | .ok l _ => l
  | .err _ _ => []

/-- Embeds the `unset` closure shared by mapLegacyVariables,
mapEnvironmentFiles and ApplyEnv: it iterates over the recorded lookups in
the order they were appended (Go `for _, lookup := range lookups`) and, per
record, unsets the key when `ok` is false and otherwise sets the key back to
the recorded value. os.Setenv and os.Unsetenv cannot fail in this model. -/
def applyRollback (lookups : List EnvVarLookup) (e : Env) : Env :=
  lookups.foldl (fun acc l => if l.ok then setEnv acc l.key l.value else unsetEnv acc l.key) e

/-- The fixed legacy-name to canonical-name table of mapLegacyVariables. -/
def legacyMappings : List EnvVarMapping :=
  [ ⟨ "AWS_ACCESS_KEY_ID", "OFFEN_STORAGE_AWS_ACCESSKEYID"⟩,
    ⟨ "AWS_SECRET_ACCESS_KEY", "OFFEN_STORAGE_AWS_SECRETACCESSKEY"⟩,
    ⟨ "AWS_SECRET_ACCESS_KEY_FILE", "FILE__OFFEN_STORAGE_AWS_SECRETACCESSKEY"⟩,
    ⟨ "AWS_ENDPOINT", "OFFEN_STORAGE_AWS_ENDPOINT"⟩,
    ⟨ "AWS_ENDPOINT_PROTO", "OFFEN_STORAGE_AWS_ENDPOINTPROTO"⟩,
       ⟨ "AWS_S3_BUCKET_NAME", "OFFEN_STORAGE_AWS_BUCKETNAME"⟩,
    ⟨ "BACKUP_FILENAME_EXPAND", "OFFEN_BACKUP_FILENAMEEXPAND"⟩,
    ⟨ "BACKUP_FILENAME", "OFFEN_BACKUP_FILENAME"⟩,
    ⟨ "BACKUP_CRON_EXPRESSION", "OFFEN_BACKUP_CRONEXPRESSION"⟩,
    ⟨ "BACKUP_RETENTION_DAYS", "OFFEN_BACKUP_RETENTIONDAYS"⟩,
    ⟨ "BACKUP_PRUNING_LEEWAY", "OFFEN_BACKUP_PRUNINGLEEWAY"⟩,
    ⟨ "BACKUP_PRUNING_PREFIX", "OFFEN_BACKUP_PRUNINGPREFIX"⟩ ]

/-- The loop body of mapLegacyVariables over the mapping table. Per pair:
look the legacy variable up and append its snapshot; when it is set, unset
it, fail if the canonical variable is also set, otherwise append the second
snapshot — whose key is `value.from` in the source, not `value.to` — and set
the canonical variable to the legacy value. -/
def mapLegacyVariablesGo : List EnvVarMapping → List EnvVarLookup → Env → MapResult
  | [], lookups, e => .ok lookups e
  | m :: rest, lookups, e =>
    let legacy := e m.from_
    let lookups := lookups ++ [⟨legacy.isSome, m.from_, legacy.getD ""⟩]
    match legacy with
    | none => mapLegacyVariablesGo rest lookups e
    | some legacyVal =>
      let e := unsetEnv e m.from_
      match e m.to_ with
      | some _ =>
        .err ("environment variable " ++ m.to_ ++ " is set, while its legacy option "
          ++ m.from_ ++ " is also set") e
      | none =>
        let lookups := lookups ++ [⟨false, m.from_, ""⟩]
        mapLegacyVariablesGo rest lookups (setEnv e m.to_ legacyVal)

/-- Embeds mapLegacyVariables: runs the loop over the fixed mapping table
starting from an empty snapshot list. -/
def mapLegacyVariables (e : Env) : MapResult :=
  mapLegacyVariablesGo legacyMappings [] e

/-- Models strings.TrimPrefix(k, "FILE__"): drops the six-character marker
when it is a prefix and returns the name unchanged otherwise, written on the
character list so that it reduces structurally. -/
def trimFileMarker (k : String) : String :=
  match k.data with
  | 'F' :: 'I' :: 'L' :: 'E' :: '_' :: '_' :: rest => String.mk rest
  | _ => k

/-- The loop body of mapEnvironmentFiles over the discovered `FILE__OFFEN_`
variables, given the file system as a partial map (os.ReadFile fails on
`none`). Per variable: unset it and append its snapshot, fail if the target
variable is already set, fail if the file cannot be read, otherwise set the
target variable to the file contents and append the target snapshot. -/
def mapEnvironmentFilesGo (fs : String → Option String) :
    List (String × String) → List EnvVarLookup → Env → MapResult
  | [], lookups, e => .ok lookups e
  | (k, v) :: rest, lookups, e =>
    let e := unsetEnv e k
    let lookups := lookups ++ [⟨true, k, v⟩]
    let newVar := trimFileMarker k
    match e newVar with
    | some _ =>
      .err ("environment variable " ++ newVar ++ " is set, while file option "
        ++ k ++ " is also set") e
    | none =>
      match fs v with
      | none => .err ("unable to read variable from file " ++ v) e
      | some contents =>
        let e := setEnv e newVar contents
        let lookups := lookups ++ [⟨false, newVar, ""⟩]
        mapEnvironmentFilesGo fs rest lookups e

/-- Embeds mapEnvironmentFiles, parameterised by the key-value pairs that
env.FindPrefixedEnvVars returned for the `FILE__OFFEN_` namespace and by the
file system. -/
def mapEnvironmentFiles (fs : String → Option String)
    (vars : List (String × String)) (e : Env) : MapResult :=
  mapEnvironmentFilesGo fs vars [] e

theorem unsetEnv_ne (e : Env) (k q : String) (h : q ≠ k) : unsetEnv e k q = e q := by
  simp [unsetEnv, h]

theorem setEnv_ne (e : Env) (k v q : String) (h : q ≠ k) : setEnv e k v q = e q := by
  simp [setEnv, h]

theorem trimFileMarker_append (r : String) :
    trimFileMarker ("FILE__OFFEN_" ++ r) = "OFFEN_" ++ r := by
  cases r with
  | mk data => rfl

theorem trimFileMarker_ne (r : String) :
    trimFileMarker ("FILE__OFFEN_" ++ r) ≠ "FILE__OFFEN_" ++ r := by
  rw [trimFileMarker_append]
  intro h
  have hl := congrArg String.length h
  rw [String.length_append, String.length_append] at hl
  have h6 : "OFFEN_".length = 6 := rfl
  have h12 : "FILE__OFFEN_".length = 12 := rfl
  rw [h6, h12] at hl
  omega

/-- Digit run of strconv.Atoi: folds decimal digits into an accumulator and
fails on the first non-digit character. -/
def digitsAux : List Char → Nat → Option Nat
  | [], acc => some acc
  | c :: cs, acc => if c.isDigit then digitsAux cs (acc * 10 + (c.toNat - 48)) else none

/-- Models strconv.Atoi: an optional sign followed by at least one decimal
digit, nothing else. -/
def atoi (v : String) : Option Int :=
  match v.data with
  | [] => none
  | '-' :: cs => if cs = [] then none else (digitsAux cs 0).map (fun n => -(n : Int))
  | '+' :: cs => if cs = [] then none else (digitsAux cs 0).map (fun n => (n : Int))
  | cs => (digitsAux cs 0).map (fun n => (n : Int))

/-- Whether a decoder call returned without error. -/
def decodeAccepts {α : Type} : Except String α → Bool
  | .ok _ => true
  | .error _ => false

/-- Embeds CompressionType.Decode: the switch accepts the strings gz and zst
and stores the value, every other string falls to the error default. -/
def compressionTypeDecode (v : String) : Except String String :=
  if v = "gz" ∨ v = "zst" then .ok v
  else .error ("error decoding compression type " ++ v)

/-- Embeds NaturalNumber.Decode: Atoi the value, then reject when the parsed
integer is at most zero. -/
def naturalNumberDecode (v : String) : Except String Int :=
  match atoi v with
  | none => .error ("error converting " ++ v ++ " to int")
  | some asInt =>
    if asInt ≤ 0 then .error ("expected a natural number, got " ++ toString asInt)
    else .ok asInt

/-- Embeds WholeNumber.Decode: Atoi the value, then reject when the parsed
integer is negative. -/
def wholeNumberDecode (v : String) : Except String Int :=
  match atoi v with
  | none => .error ("error converting " ++ v ++ " to int")
  | some asInt =>
    if asInt < 0 then
      .error ("expected a whole, positive number, including zero. Got " ++ toString asInt)
    else .ok asInt

/-- Outcome of CertDecoder.Decode. `ok none` is the empty-input early return
that stores nothing; `nilDeref` is the run-time crash of evaluating
block.Bytes on the nil block that pem.Decode returns when it finds no PEM
block in the content. -/
inductive CertDecodeOutcome where
  | ok (cert : Option String)
  | error (msg : String)
  | nilDeref

/-- Embeds CertDecoder.Decode, with os.ReadFile, pem.Decode and
x509.ParseCertificate supplied as collaborators: empty input stores nothing;
otherwise the content is the file contents when the path is readable and the
raw input string itself when not; pem.Decode finding no block makes the Go
code dereference a nil pointer; a block whose bytes do not parse as a
certificate yields the wrapped validation error; a parsed certificate is
stored. -/
def certDecoderDecode (readFile : String → Option String)
    (pemDecode : String → Option String) (parseCertificate : String → Option String)
    (v : String) : CertDecodeOutcome :=
  if v = "" then .ok none
  else
    let content := (readFile v).getD v
    match pemDecode content with
    | none => .nilDeref
    | some blockBytes =>
      match parseCertificate blockBytes with
      | none => .error "error parsing certificate"
      | some cert => .ok (some cert)

/-- Claim C5: evaluation at the failing input. An input string that is
neither a readable file path nor PEM-decodable content does not reach the
bad-certificate error branch: pem.Decode returns a nil block and the
unchecked block.Bytes dereference crashes the process. -/
theorem claim_C5_cert_decoder_crash :
    certDecoderDecode (fun _ => none) (fun _ => none) (fun _ => none)
      "not-a-cert" = .nilDeref ∧
    "not-a-cert" ≠ "" := by
  exact ⟨rfl, by decide⟩

/-- Claim C6: WholeNumber.Decode accepts 0 and rejects -1,
NaturalNumber.Decode rejects 0 and -1 and accepts 1, and
CompressionType.Decode accepts exactly gz and zst. -/
theorem claim_C6_decoder_boundaries :
    wholeNumberDecode "0" = .ok 0 ∧
    decodeAccepts (wholeNumberDecode "-1") = false ∧
    decodeAccepts (naturalNumberDecode "0") = false ∧
    decodeAccepts (naturalNumberDecode "-1") = false ∧
    naturalNumberDecode "1" = .ok 1 ∧
    ∀ v : String, decodeAccepts (compressionTypeDecode v) = (v == "gz" || v == "zst") := by
  refine ⟨rfl, by decide, by decide, by decide, rfl, ?_⟩
  intro v
  by_cases h : v = "gz" ∨ v = "zst"
  · rcases h with h | h <;> subst h <;> decide
  · push_neg at h
    rw [compressionTypeDecode, if_neg (by tauto)]
    simp [decodeAccepts, h.1, h.2]

/-- The hook severity levels of the execution pipeline. -/
inductive HookLevel where
  | plumbing
  | info
  | error
deriving DecidableEq

/-- A notification sent by one of the two callbacks registered by init. -/
inductive NotificationEvent where
  | success
  | failure (err : String)
deriving DecidableEq

/-- Embeds the hookLevelError callback registered by init when notification
URLs are configured: on a nil error it is a no-op, otherwise it sends the
failure notification. The run's final error is `Option String`, the sent
notification is the return value. -/
def errorLevelNotificationCallback : Option String → Option NotificationEvent
  | none => none
  | some e => some (.failure e)

/-- Embeds the hookLevelInfo callback registered by init right after the
error-level one: on a non-nil error it is a no-op, otherwise it sends the
success notification. -/
def infoLevelNotificationCallback : Option String → Option NotificationEvent
  | some _ => none
  | none => some .success

/-- The two notification hook registrations made by init, in registration
order, each with its level. -/
def initNotificationHookRegistrations :
    List (HookLevel × (Option String → Option NotificationEvent)) :=
  [(HookLevel.error, errorLevelNotificationCallback),
   (HookLevel.info, infoLevelNotificationCallback)]

/-- Claim C4: for every final error value of a run, at most one of the two
notification callbacks sends anything; the error-level callback sends
exactly when the final error is non-nil and the info-level callback sends
exactly when it is nil. -/
theorem claim_C4_notification_mutual_exclusion (err : Option String) :
    ((errorLevelNotificationCallback err).isSome && (infoLevelNotificationCallback err).isSome)
      = false ∧
    (errorLevelNotificationCallback err).isSome = err.isSome ∧
    (infoLevelNotificationCallback err).isSome = err.isNone := by
  cases err <;> simp [errorLevelNotificationCallback, infoLevelNotificationCallback]

/-- The Backup sub-configuration fields that init's filename resolution
reads. -/
structure BackupConfigModel where
  filename : String
  compression : String
  filenameExpand : Bool
  latestSymlink : String
  pruningPfx : String

/-- The state fields that init's filename resolution writes: s.file and the
two config fields that the FilenameExpand branch rewrites. -/
structure InitFileResult where
  file : String
  latestSymlink : String
  pruningPfx : String

/-- Embeds the filename-resolution prefix of script.init, with the external
collaborators (path.Join, template parsing and execution, os.ExpandEnv,
timeutil.Strftime) supplied as functions: join /tmp with the configured
filename, parse it as a template and execute it with Extension bound to
tar. plus the compression kind, expand environment variables in it (and in
LatestSymlink and PruningPrefix) only when FilenameExpand is set, and
finally strftime-format it against the recorded start time of the run. -/
def initResolveFilename {τ θ : Type} (pathJoinF : String → String → String)
    (tmplParse : String → Except String τ)
    (tmplExecute : τ → String → Except String String)
    (expandEnv : String → String) (strftime : θ → String → String)
    (c : BackupConfigModel) (startTime : θ) : Except String InitFileResult :=
  let file := pathJoinF "/tmp" c.filename
  match tmplParse file with
  | .error e => .error ("unable to parse backup file extension template: " ++ e)
  | .ok tmplFileName =>
    match tmplExecute tmplFileName ("tar." ++ c.compression) with
    | .error e => .error ("error executing backup file extension template: " ++ e)
    | .ok bf =>
      let file1 := bf
      let file2 := if c.filenameExpand then expandEnv file1 else file1
      let latestSymlink := if c.filenameExpand then expandEnv c.latestSymlink else c.latestSymlink
      let pruningPfx := if c.filenameExpand then expandEnv c.pruningPfx else c.pruningPfx
      .ok ⟨strftime startTime file2, latestSymlink, pruningPfx⟩

/-- The filename resolution order as the specification words it: template
expansion with the fixed Extension variable first, then environment-variable
expansion only when FilenameExpand is set, then time-formatting against the
run's start time. -/
def specFilenameResolution {τ θ : Type} (pathJoinF : String → String → String)
    (tmplParse : String → Except String τ)
    (tmplExecute : τ → String → Except String String)
    (expandEnv : String → String) (strftime : θ → String → String)
    (c : BackupConfigModel) (startTime : θ) : Except String String :=
  match tmplParse (pathJoinF "/tmp" c.filename) with
  | .error e => .error e
  | .ok t =>
    match tmplExecute t ("tar." ++ c.compression) with
    | .error e => .error e
    | .ok templated =>
      .ok (strftime startTime (if c.filenameExpand then expandEnv templated else templated))

/-- Claim C8: for all collaborators and configurations, the file name that
init resolves agrees with the specified pipeline — template expansion with
Extension bound to tar. plus the compression kind, then optional
environment-variable expansion, then time-formatting against the start
time — and the two computations fail together. -/
theorem claim_C8_filename_resolution_order {τ θ : Type} (pathJoinF : String → String → String)
    (tmplParse : String → Except String τ)
    (tmplExecute : τ → String → Except String String)
    (expandEnv : String → String) (strftime : θ → String → String)
    (c : BackupConfigModel) (startTime : θ) :
    ((initResolveFilename pathJoinF tmplParse tmplExecute expandEnv strftime c startTime).map
      InitFileResult.file).toOption =
    (specFilenameResolution pathJoinF tmplParse tmplExecute expandEnv strftime c
      startTime).toOption := by
  rcases hp : tmplParse (pathJoinF "/tmp" c.filename) with e | t
  · simp [initResolveFilename, specFilenameResolution, hp, Except.map, Except.toOption]
  · rcases he : tmplExecute t ("tar." ++ c.compression) with e2 | bf
    · simp [initResolveFilename, specFilenameResolution, hp, he, Except.map, Except.toOption]
    · simp [initResolveFilename, specFilenameResolution, hp, he, Except.map, Except.toOption]

/-- The cron engine: live entry identifiers plus the next identifier that
AddFunc hands out (robfig cron allocates increasing entry ids). -/
structure CronState where
  nextId : Nat
  entries : List Nat
deriving DecidableEq

/-- The three configuration sourcing strategies of the command. -/
inductive ConfigStrategy where
  | env
  | confd
  | label
deriving DecidableEq

/-- The Config fields the scheduler and command mode read: the cron
expression and the source tag. -/
structure SchedConfig where
  backupCronExpression : String
  source : String
deriving DecidableEq

/-- The command struct fields the scheduler mutates: the cron engine, the
per-strategy map of recorded entry ids, and the warnings the logger
emitted. -/
structure CommandState where
  cron : CronState
  schedules : ConfigStrategy → List Nat
  warnings : List String

/-- Models cron.Cron.Remove: drops the entry with the given id; removing an
unknown id is a no-op. -/
def cronRemove (s : CronState) (id : Nat) : CronState :=
  { s with entries := s.entries.filter (fun x => x ≠ id) }

/-- Models cron.Cron.AddFunc: fails when the expression does not parse,
otherwise registers a fresh entry and returns its id. -/
def cronAddFunc (parse : String → Bool) (expr : String) (s : CronState) :
    Except String (Nat × CronState) :=
  if parse expr then
    .ok (s.nextId, ⟨s.nextId + 1, s.entries ++ [s.nextId]⟩)
  else .error ("error adding schedule " ++ expr)

/-- The configuration loop of scheduleConfd. Per Config: AddFunc the
expression (an add error aborts the reload); then, only when
checkCronSchedule reports that the expression will never run, log the
warning and append the new entry id to the confd bucket of the schedules
map — in the source the append sits inside that warning branch. -/
def scheduleConfdGo (parse checkCron : String → Bool) :
    List SchedConfig → CommandState → Option String × CommandState
  | [], st => (none, st)
  | cfg :: rest, st =>
    match cronAddFunc parse cfg.backupCronExpression st.cron with
    | .error e => (some e, st)
    | .ok (id, cron2) =>
      let st1 : CommandState := { st with cron := cron2 }
      let st2 : CommandState :=
        if checkCron cfg.backupCronExpression then st1
        else
          { st1 with
            warnings := st1.warnings ++ [cfg.backupCronExpression],
            schedules := fun s =>
              if s = ConfigStrategy.confd then st1.schedules ConfigStrategy.confd ++ [id]
              else st1.schedules s }
      scheduleConfdGo parse checkCron rest st2

/-- Embeds scheduleConfd: remove every entry id recorded in the confd bucket
(the bucket itself is never cleared), source the confd configurations, then
run the configuration loop. checkCronSchedule and the cron expression parser
are collaborators supplied as predicates. -/
def scheduleConfd (parse checkCron : String → Bool)
    (sourceConfd : Except String (List SchedConfig)) (st : CommandState) :
    Option String × CommandState :=
  let cron1 := (st.schedules ConfigStrategy.confd).foldl cronRemove st.cron
  let st1 : CommandState := { st with cron := cron1 }
  match sourceConfd with
  | .error e => (some ("error sourcing configuration: " ++ e), st1)
  | .ok configurations => scheduleConfdGo parse checkCron configurations st1

/-- The configuration loop of scheduleLabel. Per Config: log the warning
first when the expression will never run, AddFunc the expression, and append
the new entry id — to the confd bucket, as the source does. -/
def scheduleLabelGo (parse checkCron : String → Bool) :
    List SchedConfig → CommandState → Option String × CommandState
  | [], st => (none, st)
  | cfg :: rest, st =>
    let st0 : CommandState :=
      if checkCron cfg.backupCronExpression then st
      else { st with warnings := st.warnings ++ [cfg.backupCronExpression] }
    match cronAddFunc parse cfg.backupCronExpression st0.cron with
    | .error e => (some e, st0)
    | .ok (id, cron2) =>
      scheduleLabelGo parse checkCron rest
        { st0 with
          cron := cron2,
          schedules := fun s =>
            if s = ConfigStrategy.confd then st0.schedules ConfigStrategy.confd ++ [id]
            else st0.schedules s }

/-- Embeds scheduleLabel: remove every entry id recorded in the label
bucket, source the label configurations, then run the configuration loop. -/
def scheduleLabel (parse checkCron : String → Bool)
    (sourceLabel : Except String (List SchedConfig)) (st : CommandState) :
    Option String × CommandState :=
  let cron1 := (st.schedules ConfigStrategy.label).foldl cronRemove st.cron
  let st1 : CommandState := { st with cron := cron1 }
  match sourceLabel with
  | .error e => (some ("error sourcing configuration: " ++ e), st1)
  | .ok configurations => scheduleLabelGo parse checkCron configurations st1

/-- The command state as newCommand builds it: empty buckets, an empty cron
engine whose first entry id will be 1, nothing logged. -/
def initialCommandState : CommandState := ⟨⟨1, []⟩, fun _ => [], []⟩

/-- A cron expression parser or schedule check that accepts everything. -/
def alwaysTrue : String → Bool := fun _ => true

/-- A checkCronSchedule collaborator reporting that the expression can never
fire. -/
def neverFires : String → Bool := fun _ => false

/-- A confd configuration whose (valid, firing) expression is @daily. -/
def c3Config : SchedConfig := ⟨"@daily", "/etc/dockervolumebackup/conf.d/a.conf"⟩

/-- Claim C3: evaluation at the failing input. With one unchanged confd
Config whose cron expression parses and can fire, one scheduleConfd call
leaves one live entry but a second call leaves two: the entry id is appended
to the confd bucket only inside the never-fires warning branch, so a firing
entry is never recorded and therefore never removed on reload. -/
theorem claim_C3_confd_reload_doubles :
    (scheduleConfd alwaysTrue alwaysTrue (.ok [c3Config]) initialCommandState).1 = none ∧
    (scheduleConfd alwaysTrue alwaysTrue (.ok [c3Config]) initialCommandState).2.cron.entries
      = [1] ∧
    (scheduleConfd alwaysTrue alwaysTrue (.ok [c3Config])
      (scheduleConfd alwaysTrue alwaysTrue (.ok [c3Config]) initialCommandState).2).1 = none ∧
    (scheduleConfd alwaysTrue alwaysTrue (.ok [c3Config])
      (scheduleConfd alwaysTrue alwaysTrue (.ok [c3Config]) initialCommandState).2).2.cron.entries
      = [1, 2] := by
  refine ⟨rfl, rfl, rfl, rfl⟩

theorem foldl_cronRemove_nextId (ids : List Nat) (s : CronState) :
    (ids.foldl cronRemove s).nextId = s.nextId := by
  induction ids generalizing s with
  | nil => rfl
  | cons i t ih => simpa [cronRemove] using ih (cronRemove s i)

/-- Claim C9: a syntactically valid cron expression that can provably never
fire is accepted by both reloads — no error is returned, the entry is still
added to the cron engine — and the warning is logged instead of the
expression being rejected. -/
theorem claim_C9_never_firing_accepted (parse checkCron : String → Bool)
    (cfg : SchedConfig) (st : CommandState)
    (hp : parse cfg.backupCronExpression = true)
    (hc : checkCron cfg.backupCronExpression = false) :
    ((scheduleConfd parse checkCron (.ok [cfg]) st).1 = none ∧
     (scheduleConfd parse checkCron (.ok [cfg]) st).2.cron.entries =
       ((st.schedules ConfigStrategy.confd).foldl cronRemove st.cron).entries ++
         [((st.schedules ConfigStrategy.confd).foldl cronRemove st.cron).nextId] ∧
     (scheduleConfd parse checkCron (.ok [cfg]) st).2.warnings =
       st.warnings ++ [cfg.backupCronExpression]) ∧
    ((scheduleLabel parse checkCron (.ok [cfg]) st).1 = none ∧
     (scheduleLabel parse checkCron (.ok [cfg]) st).2.cron.entries =
       ((st.schedules ConfigStrategy.label).foldl cronRemove st.cron).entries ++
         [((st.schedules ConfigStrategy.label).foldl cronRemove st.cron).nextId] ∧
     (scheduleLabel parse checkCron (.ok [cfg]) st).2.warnings =
       st.warnings ++ [cfg.backupCronExpression]) := by
  constructor
  · simp [scheduleConfd, scheduleConfdGo, cronAddFunc, hp, hc]
  · simp [scheduleLabel, scheduleLabelGo, cronAddFunc, hp, hc]

/-- A configuration with a valid expression that never fires, February 30. -/
def c9Config : SchedConfig := ⟨"0 0 30 2 *", "label:web"⟩

/-- Witness for claim C9: the never-firing February 30 expression is
scheduled without error by both reloads and the warning is logged. -/
theorem claim_C9_never_firing_accepted_witness :
    (scheduleConfd alwaysTrue neverFires (.ok [c9Config]) initialCommandState).1 = none ∧
    (scheduleConfd alwaysTrue neverFires (.ok [c9Config]) initialCommandState).2.cron.entries
      = [1] ∧
    (scheduleConfd alwaysTrue neverFires (.ok [c9Config]) initialCommandState).2.warnings
      = ["0 0 30 2 *"] ∧
    (scheduleLabel alwaysTrue neverFires (.ok [c9Config]) initialCommandState).1 = none := by
  have h := claim_C9_never_firing_accepted alwaysTrue neverFires c9Config
    initialCommandState rfl rfl
  exact ⟨h.1.1, by rw [h.1.2.1]; rfl, by rw [h.1.2.2]; rfl, h.2.1⟩

/-- The first-match loop of runAsCommand: walk the configurations; at the
first one whose source tag equals the requested source, run it and return
(wrapping a run error); otherwise keep looking. -/
def runFirstMatching (run : SchedConfig → Except String Unit) (wrapMsg : String)
    (src : String) : List SchedConfig → Option (Except String Unit)
  | [] => none
  | cfg :: rest =>
    if cfg.source = src then
      some (match run cfg with
        | .error e => .error (wrapMsg ++ ": " ++ e)
        | .ok _ => .ok ())
    else runFirstMatching run wrapMsg src rest

/-- Embeds runAsCommand: source the env configurations and run the first one
matching the requested source via runScript; failing a match, source the
label configurations and run the first match via runProxy; with no match at
all, return nil. -/
def runAsCommand (sourceConfiguration : ConfigStrategy → Except String (List SchedConfig))
    (runScript runProxy : SchedConfig → Except String Unit) (source : String) :
    Except String Unit :=
  match sourceConfiguration ConfigStrategy.env with
  | .error e => .error ("error loading env vars: " ++ e)
  | .ok configurations =>
    match runFirstMatching runScript "error running script" source configurations with
    | some r => r
    | none =>
      match sourceConfiguration ConfigStrategy.label with
      | .error e => .error ("error loading labels: " ++ e)
      | .ok configurations2 =>
        match runFirstMatching runProxy "error running script" source configurations2 with
        | some r => r
        | none => .ok ()

theorem runFirstMatching_none (run : SchedConfig → Except String Unit) (m src : String)
    (l : List SchedConfig) (h : ∀ cfg ∈ l, cfg.source ≠ src) :
    runFirstMatching run m src l = none := by
  induction l with
  | nil => rfl
  | cons c t ih =>
    simp only [runFirstMatching]
    rw [if_neg (h c (by simp))]
    exact ih (fun cfg hc => h cfg (by simp [hc]))

/-- Claim C10: when both sourcing strategies succeed and no sourced
configuration's source tag equals the requested source, runAsCommand runs
nothing and returns nil. -/
theorem claim_C10_no_match_returns_nil
    (sourceConfiguration : ConfigStrategy → Except String (List SchedConfig))
    (runScript runProxy : SchedConfig → Except String Unit) (src : String)
    (l1 l2 : List SchedConfig)
    (h1 : sourceConfiguration ConfigStrategy.env = .ok l1)
    (h2 : sourceConfiguration ConfigStrategy.label = .ok l2)
    (hn1 : ∀ cfg ∈ l1, cfg.source ≠ src)
    (hn2 : ∀ cfg ∈ l2, cfg.source ≠ src) :
    runAsCommand sourceConfiguration runScript runProxy src = .ok () := by
  simp only [runAsCommand, h1, h2,
    runFirstMatching_none runScript _ _ l1 hn1,
    runFirstMatching_none runProxy _ _ l2 hn2]

/-- A sourcing collaborator whose configurations all carry source tag
volume-a. -/
def c10Source : ConfigStrategy → Except String (List SchedConfig) :=
  fun _ => .ok [⟨"@daily", "volume-a"⟩]

/-- A run collaborator that always succeeds. -/
def alwaysOk : SchedConfig → Except String Unit := fun _ => .ok ()

/-- Witness for claim C10: requesting a source no configuration carries
exits with nil. -/
theorem claim_C10_no_match_returns_nil_witness :
    runAsCommand c10Source alwaysOk alwaysOk "from environment" = .ok () :=
  claim_C10_no_match_returns_nil c10Source alwaysOk alwaysOk "from environment"
    [⟨"@daily", "volume-a"⟩] [⟨"@daily", "volume-a"⟩] rfl rfl (by decide) (by decide)

/-- An environment holding only the legacy variable AWS_ACCESS_KEY_ID. -/
def c1Env : Env := fun k => if k = "AWS_ACCESS_KEY_ID" then some "ak" else none

/-- A concrete file-indirection variable name. -/
def c7Key : String := "FILE__OFFEN_STORAGE_AWS_SECRETACCESSKEY"

/-- An environment holding only the file-indirection variable. -/
def c7Env : Env := fun k => if k = c7Key then some "/run/secrets/aws" else none

/-- A file system holding one readable secret file. -/
def c7Fs : String → Option String :=
  fun p => if p = "/run/secrets/aws" then some "s3cr3t" else none

/-- The error message of a failed call, none for a successful one. -/
def MapResult.errMsg : MapResult → Option String
  | .ok _ _ => none
  | .err m _ => some m

/-- All names appearing in a mapping table are pairwise distinct: within a
pair the legacy and canonical names differ, and no name of a later pair
collides with either name of an earlier pair. The fixed table of
mapLegacyVariables satisfies this. -/
def mappingNamesOkB : List EnvVarMapping → Bool
  | [] => true
  | m :: rest =>
    (m.from_ != m.to_) &&
    (rest.all fun m2 =>
      (m2.from_ != m.from_) && (m2.from_ != m.to_) && (m2.to_ != m.from_) && (m2.to_ != m.to_)) &&
    mappingNamesOkB rest

theorem mappingNamesOkB_cons (m : EnvVarMapping) (rest : List EnvVarMapping)
    (h : mappingNamesOkB (m :: rest) = true) :
    m.from_ ≠ m.to_ ∧
    (∀ m2 ∈ rest, m2.from_ ≠ m.from_ ∧ m2.from_ ≠ m.to_ ∧ m2.to_ ≠ m.from_ ∧ m2.to_ ≠ m.to_) ∧
    mappingNamesOkB rest = true := by
  simp only [mappingNamesOkB, Bool.and_eq_true, List.all_eq_true, bne_iff_ne] at h
  obtain ⟨⟨h1, h2⟩, h3⟩ := h
  refine ⟨h1, fun m2 hm => ?_, h3⟩
  have h4 := h2 m2 hm
  tauto

theorem string_append_right_inj (s a b : String) (h : s ++ a = s ++ b) : a = b := by
  cases s with
  | mk ds =>
    cases a with
    | mk da =>
      cases b with
      | mk db =>
        have hd := congrArg String.data h
        have hl : da = db := List.append_cancel_left (show ds ++ da = ds ++ db from hd)
        rw [hl]

theorem offen_ne_fileoffen (a b : String) : ("OFFEN_" ++ a : String) ≠ "FILE__OFFEN_" ++ b := by
  cases a with
  | mk da =>
    cases b with
    | mk db =>
      intro h
      have hd := congrArg String.data h
      have hh : (some 'O' : Option Char) = some 'F' := congrArg List.head? hd
      exact absurd hh (by decide)

/-- Behaviour of the mapLegacyVariables loop at the first conflicting pair:
with the table split as pre ++ mc :: post, every pre pair conflict-free and
mc conflicting, the loop returns the conflict error for mc with an empty
snapshot list, the legacy variable of mc has been unset, every pre pair that
was set stays overridden (legacy unset, canonical holding the legacy value),
and every name not touched by those overrides keeps its value. -/
theorem mapLegacyGo_first_conflict
    (pre : List EnvVarMapping) (mc : EnvVarMapping) (post : List EnvVarMapping)
    (lookups : List EnvVarLookup) (e : Env)
    (hnames : mappingNamesOkB (pre ++ mc :: post) = true)
    (hpre : ∀ m ∈ pre, e m.to_ = none ∨ e m.from_ = none)
    (hc : (e mc.from_).isSome) (hc2 : (e mc.to_).isSome) :
    (mapLegacyVariablesGo (pre ++ mc :: post) lookups e).isErr = true ∧
    (mapLegacyVariablesGo (pre ++ mc :: post) lookups e).snapshots = [] ∧
    (mapLegacyVariablesGo (pre ++ mc :: post) lookups e).errMsg =
      some ("environment variable " ++ mc.to_ ++ " is set, while its legacy option "
        ++ mc.from_ ++ " is also set") ∧
    (mapLegacyVariablesGo (pre ++ mc :: post) lookups e).envOut mc.from_ = none ∧
    (∀ m ∈ pre, ∀ v, e m.from_ = some v →
      (mapLegacyVariablesGo (pre ++ mc :: post) lookups e).envOut m.from_ = none ∧
      (mapLegacyVariablesGo (pre ++ mc :: post) lookups e).envOut m.to_ = some v) ∧
    (∀ q, (∀ m ∈ pre, q ≠ m.from_ ∧ q ≠ m.to_) → q ≠ mc.from_ →
      (mapLegacyVariablesGo (pre ++ mc :: post) lookups e).envOut q = e q) := by
  induction pre generalizing lookups e with
  | nil =>
    obtain ⟨hft, _, _⟩ := mappingNamesOkB_cons mc post hnames
    obtain ⟨v, hv⟩ := Option.isSome_iff_exists.mp hc
    obtain ⟨w, hw⟩ := Option.isSome_iff_exists.mp hc2
    have hu : unsetEnv e mc.from_ mc.to_ = some w := by
      rw [unsetEnv_ne e mc.from_ mc.to_ (fun hx => hft hx.symm)]
      exact hw
    simp only [List.nil_append, mapLegacyVariablesGo, hv, hu]
    refine ⟨rfl, rfl, rfl, by simp [MapResult.envOut, unsetEnv], ?_, ?_⟩
    · intro m hm
      exact absurd hm (List.not_mem_nil m)
    · intro q _ hq
      simp [MapResult.envOut, unsetEnv, hq]
  | cons m1 pre1 ih =>
    rw [List.cons_append] at hnames ⊢
    obtain ⟨hft, hall, htail⟩ := mappingNamesOkB_cons m1 (pre1 ++ mc :: post) hnames
    have hmc := hall mc (by simp)
    have hallp : ∀ m ∈ pre1, m.from_ ≠ m1.from_ ∧ m.from_ ≠ m1.to_ ∧
        m.to_ ≠ m1.from_ ∧ m.to_ ≠ m1.to_ := fun m hm => hall m (by simp [hm])
    cases hfrom : e m1.from_ with
    | none =>
      simp only [mapLegacyVariablesGo, hfrom, Option.isSome_none, Option.getD_none]
      have hres := ih (lookups ++ [⟨false, m1.from_, ""⟩]) e htail
        (fun m hm => hpre m (by simp [hm])) hc hc2
      refine ⟨hres.1, hres.2.1, hres.2.2.1, hres.2.2.2.1, ?_, ?_⟩
      · intro m hm v hv
        rcases List.mem_cons.mp hm with rfl | hm1
        · rw [hfrom] at hv
          exact absurd hv (by simp)
        · exact hres.2.2.2.2.1 m hm1 v hv
      · intro q hq hqmc
        exact hres.2.2.2.2.2 q (fun m hm => hq m (by simp [hm])) hqmc
    | some v1 =>
      have hto : e m1.to_ = none := by
        rcases hpre m1 (by simp) with h | h
        · exact h
        · rw [hfrom] at h
          exact absurd h (by simp)
      have hu : unsetEnv e m1.from_ m1.to_ = none := by
        rw [unsetEnv_ne e m1.from_ m1.to_ (fun hx => hft hx.symm)]
        exact hto
      simp only [mapLegacyVariablesGo, hfrom, Option.isSome_some, Option.getD_some, hu]
      have he1 : ∀ x, x ≠ m1.from_ → x ≠ m1.to_ →
          (setEnv (unsetEnv e m1.from_) m1.to_ v1) x = e x := by
        intro x h1 h2
        rw [setEnv_ne _ _ _ _ h2, unsetEnv_ne _ _ _ h1]
      have hpre1 : ∀ m ∈ pre1,
          (setEnv (unsetEnv e m1.from_) m1.to_ v1) m.to_ = none ∨
          (setEnv (unsetEnv e m1.from_) m1.to_ v1) m.from_ = none := by
        intro m hm
        have hd := hallp m hm
        rw [he1 m.to_ hd.2.2.1 hd.2.2.2, he1 m.from_ hd.1 hd.2.1]
        exact hpre m (by simp [hm])
      have hc3 : ((setEnv (unsetEnv e m1.from_) m1.to_ v1) mc.from_).isSome := by
        rw [he1 mc.from_ hmc.1 hmc.2.1]
        exact hc
      have hc4 : ((setEnv (unsetEnv e m1.from_) m1.to_ v1) mc.to_).isSome := by
        rw [he1 mc.to_ hmc.2.2.1 hmc.2.2.2]
        exact hc2
      have hres := ih (lookups ++ [⟨true, m1.from_, v1⟩] ++ [⟨false, m1.from_, ""⟩])
        (setEnv (unsetEnv e m1.from_) m1.to_ v1) htail hpre1 hc3 hc4
      refine ⟨hres.1, hres.2.1, hres.2.2.1, hres.2.2.2.1, ?_, ?_⟩
      · intro m hm v hv
        rcases List.mem_cons.mp hm with rfl | hm1
        · rw [hfrom] at hv
          injection hv with hvv
          subst hvv
          constructor
          · rw [hres.2.2.2.2.2 m.from_
              (fun m2 hm2 => ⟨(hallp m2 hm2).1.symm, (hallp m2 hm2).2.2.1.symm⟩) hmc.1.symm]
            rw [setEnv_ne _ _ _ _ hft]
            simp [unsetEnv]
          · rw [hres.2.2.2.2.2 m.to_
              (fun m2 hm2 => ⟨(hallp m2 hm2).2.1.symm, (hallp m2 hm2).2.2.2.symm⟩) hmc.2.1.symm]
            simp [setEnv]
        · have hd := hallp m hm1
          refine hres.2.2.2.2.1 m hm1 v ?_
          rw [he1 m.from_ hd.1 hd.2.1]
          exact hv
      · intro q hq hqmc
        have hq1 := hq m1 (by simp)
        rw [hres.2.2.2.2.2 q (fun m hm => hq m (by simp [hm])) hqmc]
        exact he1 q hq1.1 hq1.2

/-- Behaviour of the mapEnvironmentFiles loop at the first conflicting
variable: with the discovered variables split as pre ++ (kc, vc) :: post,
all keys FILE__OFFEN_-prefixed and distinct, every pre variable readable and
conflict-free and the target of kc set, the loop returns the conflict error
for kc with an empty snapshot list, kc has been unset, every pre variable
stays overridden (indirection unset, target holding the file contents), and
every name not touched by those overrides keeps its value. -/
theorem mapEnvFilesGo_first_conflict
    (pre : List (String × String)) (kc vc : String) (post : List (String × String))
    (fs : String → Option String) (lookups : List EnvVarLookup) (e : Env)
    (hpfx : ∀ p ∈ pre ++ (kc, vc) :: post, ∃ r, p.1 = "FILE__OFFEN_" ++ r)
    (hnd : ((pre ++ (kc, vc) :: post).map Prod.fst).Nodup)
    (hpre : ∀ p ∈ pre, e (trimFileMarker p.1) = none ∧ (fs p.2).isSome)
    (hcs : (e (trimFileMarker kc)).isSome) :
    (mapEnvironmentFilesGo fs (pre ++ (kc, vc) :: post) lookups e).isErr = true ∧
    (mapEnvironmentFilesGo fs (pre ++ (kc, vc) :: post) lookups e).snapshots = [] ∧
    (mapEnvironmentFilesGo fs (pre ++ (kc, vc) :: post) lookups e).errMsg =
      some ("environment variable " ++ trimFileMarker kc ++ " is set, while file option "
        ++ kc ++ " is also set") ∧
    (mapEnvironmentFilesGo fs (pre ++ (kc, vc) :: post) lookups e).envOut kc = none ∧
    (∀ p ∈ pre,
      (mapEnvironmentFilesGo fs (pre ++ (kc, vc) :: post) lookups e).envOut p.1 = none ∧
      (mapEnvironmentFilesGo fs (pre ++ (kc, vc) :: post) lookups e).envOut
        (trimFileMarker p.1) = fs p.2) ∧
    (∀ q, (∀ p ∈ pre, q ≠ p.1 ∧ q ≠ trimFileMarker p.1) → q ≠ kc →
      (mapEnvironmentFilesGo fs (pre ++ (kc, vc) :: post) lookups e).envOut q = e q) := by
  induction pre generalizing lookups e with
  | nil =>
    obtain ⟨rc, hrc0⟩ := hpfx (kc, vc) (by simp)
    have hrc : kc = "FILE__OFFEN_" ++ rc := hrc0
    obtain ⟨w, hw⟩ := Option.isSome_iff_exists.mp hcs
    have hne : trimFileMarker kc ≠ kc := by
      rw [hrc]
      exact trimFileMarker_ne rc
    have hu : unsetEnv e kc (trimFileMarker kc) = some w := by
      rw [unsetEnv_ne e kc _ hne]
      exact hw
    simp only [List.nil_append, mapEnvironmentFilesGo, hu]
    refine ⟨rfl, rfl, rfl, by simp [MapResult.envOut, unsetEnv], ?_, ?_⟩
    · intro p hp
      exact absurd hp (List.not_mem_nil p)
    · intro q _ hq
      simp [MapResult.envOut, unsetEnv, hq]
  | cons p1 pre1 ih =>
    obtain ⟨k1, v1⟩ := p1
    rw [List.cons_append] at hpfx hnd ⊢
    obtain ⟨r1, hr10⟩ := hpfx (k1, v1) (by simp)
    have hr1 : k1 = "FILE__OFFEN_" ++ r1 := hr10
    have hne1 : trimFileMarker k1 ≠ k1 := by
      rw [hr1]
      exact trimFileMarker_ne r1
    obtain ⟨hp1a, hp1b⟩ := hpre (k1, v1) (by simp)
    obtain ⟨c1, hc1⟩ := Option.isSome_iff_exists.mp hp1b
    rw [List.map_cons] at hnd
    obtain ⟨hk1nin, hndrest⟩ := List.nodup_cons.mp hnd
    have hkeys : ∀ p ∈ pre1 ++ (kc, vc) :: post, p.1 ≠ k1 := by
      intro p hp hcontra
      refine hk1nin ?_
      rw [← hcontra]
      exact List.mem_map.mpr ⟨p, hp, rfl⟩
    have hfacts : ∀ p ∈ pre1 ++ (kc, vc) :: post,
        p.1 ≠ k1 ∧ p.1 ≠ trimFileMarker k1 ∧ trimFileMarker p.1 ≠ k1 ∧
        trimFileMarker p.1 ≠ trimFileMarker k1 := by
      intro p hp
      obtain ⟨r, hr⟩ := hpfx p (by simp [hp])
      have hk := hkeys p hp
      refine ⟨hk, ?_, ?_, ?_⟩
      · rw [hr, hr1, trimFileMarker_append]
        exact Ne.symm (offen_ne_fileoffen r1 r)
      · rw [hr, trimFileMarker_append, hr1]
        exact offen_ne_fileoffen r r1
      · rw [hr, trimFileMarker_append, hr1, trimFileMarker_append]
        intro hx
        exact hk (by rw [hr, hr1, string_append_right_inj _ _ _ hx])
    have hu1 : unsetEnv e k1 (trimFileMarker k1) = none := by
      rw [unsetEnv_ne e k1 _ hne1]
      exact hp1a
    simp only [mapEnvironmentFilesGo, hu1, hc1]
    have he1 : ∀ x, x ≠ k1 → x ≠ trimFileMarker k1 →
        (setEnv (unsetEnv e k1) (trimFileMarker k1) c1) x = e x := by
      intro x h1 h2
      rw [setEnv_ne _ _ _ _ h2, unsetEnv_ne _ _ _ h1]
    have hpre1 : ∀ p ∈ pre1,
        (setEnv (unsetEnv e k1) (trimFileMarker k1) c1) (trimFileMarker p.1) = none ∧
        (fs p.2).isSome := by
      intro p hp
      have hd := hfacts p (by simp [hp])
      rw [he1 (trimFileMarker p.1) hd.2.2.1 hd.2.2.2]
      exact hpre p (by simp [hp])
    have hkcfacts := hfacts (kc, vc) (by simp)
    have hcs2 : ((setEnv (unsetEnv e k1) (trimFileMarker k1) c1) (trimFileMarker kc)).isSome := by
      rw [he1 (trimFileMarker kc) hkcfacts.2.2.1 hkcfacts.2.2.2]
      exact hcs
    have hres := ih (lookups ++ [⟨true, k1, v1⟩] ++ [⟨false, trimFileMarker k1, ""⟩])
      (setEnv (unsetEnv e k1) (trimFileMarker k1) c1)
      (fun p hp => hpfx p (by simp [hp])) hndrest hpre1 hcs2
    refine ⟨hres.1, hres.2.1, hres.2.2.1, hres.2.2.2.1, ?_, ?_⟩
    · intro p hp
      rcases List.mem_cons.mp hp with rfl | hp1
      · constructor
        · rw [hres.2.2.2.2.2 k1
            (fun p2 hp2 => ⟨(hfacts p2 (by simp [hp2])).1.symm,
              (hfacts p2 (by simp [hp2])).2.2.1.symm⟩) hkcfacts.1.symm]
          rw [setEnv_ne _ _ _ _ (fun hx => hne1 hx.symm)]
          simp [unsetEnv]
        · rw [hres.2.2.2.2.2 (trimFileMarker k1)
            (fun p2 hp2 => ⟨(hfacts p2 (by simp [hp2])).2.1.symm,
              (hfacts p2 (by simp [hp2])).2.2.2.symm⟩) hkcfacts.2.1.symm]
          rw [hc1]
          simp [setEnv]
      · have hrp := hres.2.2.2.2.1 p hp1
        exact ⟨hrp.1, hrp.2⟩
    · intro q hq hqkc
      have hq1 := hq (k1, v1) (by simp)
      rw [hres.2.2.2.2.2 q (fun p hp => hq p (by simp [hp])) hqkc]
      exact he1 q hq1.1 hq1.2

/-- Claim C1: evaluation at the failing input. In the environment that sets
only AWS_ACCESS_KEY_ID, mapLegacyVariables succeeds, yet replaying the
returned snapshots leaves AWS_ACCESS_KEY_ID unset (it was set before the
call) and leaves OFFEN_STORAGE_AWS_ACCESSKEYID set (it did not exist before
the call): the rollback does not restore the pre-call environment, because
the snapshot taken for the canonical variable records the legacy name as its
key and the snapshots are replayed in the order they were appended. -/
theorem claim_C1_rollback_not_roundtrip :
    c1Env "AWS_ACCESS_KEY_ID" = some "ak" ∧
    c1Env "OFFEN_STORAGE_AWS_ACCESSKEYID" = none ∧
    (mapLegacyVariables c1Env).isErr = false ∧
    applyRollback (mapLegacyVariables c1Env).snapshots (mapLegacyVariables c1Env).envOut
      "AWS_ACCESS_KEY_ID" = none ∧
    applyRollback (mapLegacyVariables c1Env).snapshots (mapLegacyVariables c1Env).envOut
      "OFFEN_STORAGE_AWS_ACCESSKEYID" = some "ak" := by
  refine ⟨rfl, rfl, rfl, ?_, ?_⟩ <;> decide

/-- An environment holding both AWS_ACCESS_KEY_ID and its canonical
counterpart OFFEN_STORAGE_AWS_ACCESSKEYID. -/
def c2Env : Env := fun k =>
  if k = "AWS_ACCESS_KEY_ID" then some "x"
  else if k = "OFFEN_STORAGE_AWS_ACCESSKEYID" then some "y" else none

/-- Claim C2, as stated, is false: with both AWS_ACCESS_KEY_ID and
OFFEN_STORAGE_AWS_ACCESSKEYID set, mapLegacyVariables does return a conflict
error, but the process environment is not left unchanged — the legacy
variable has already been unset when the error is returned. -/
theorem claim_C2_counterexample :
    (mapLegacyVariables c2Env).isErr = true ∧
    c2Env "AWS_ACCESS_KEY_ID" = some "x" ∧
    (mapLegacyVariables c2Env).envOut "AWS_ACCESS_KEY_ID" = none := by
  refine ⟨?_, rfl, ?_⟩ <;> decide

/-- Claim C2 as amended: when, scanning the fixed mapping table in order,
the first conflicting pair is reached (both its legacy and its canonical
variable set, every earlier pair conflict-free), mapLegacyVariables returns
that pair's conflict error with a nil rollback, but the environment is NOT
left unchanged: the conflicting legacy variable has already been unset,
every earlier pair that was set stays overridden (legacy unset, canonical
holding the legacy value), and only the untouched names keep their values.
The same holds for mapEnvironmentFiles at the first conflicting
FILE__OFFEN_ variable, earlier variables staying overridden with their
file contents. -/
theorem claim_C2_amended :
    (∀ (e : Env) (pre : List EnvVarMapping) (mc : EnvVarMapping) (post : List EnvVarMapping),
      legacyMappings = pre ++ mc :: post →
      (∀ m ∈ pre, e m.to_ = none ∨ e m.from_ = none) →
      (e mc.from_).isSome → (e mc.to_).isSome →
      (mapLegacyVariables e).isErr = true ∧
      (mapLegacyVariables e).snapshots = [] ∧
      (mapLegacyVariables e).errMsg =
        some ("environment variable " ++ mc.to_ ++ " is set, while its legacy option "
          ++ mc.from_ ++ " is also set") ∧
      (mapLegacyVariables e).envOut mc.from_ = none ∧
      (∀ m ∈ pre, ∀ v, e m.from_ = some v →
        (mapLegacyVariables e).envOut m.from_ = none ∧
        (mapLegacyVariables e).envOut m.to_ = some v) ∧
      (∀ q, (∀ m ∈ pre, q ≠ m.from_ ∧ q ≠ m.to_) → q ≠ mc.from_ →
        (mapLegacyVariables e).envOut q = e q)) ∧
    (∀ (fs : String → Option String) (e : Env) (pre : List (String × String))
      (kc vc : String) (post : List (String × String)),
      (∀ p ∈ pre ++ (kc, vc) :: post, ∃ r, p.1 = "FILE__OFFEN_" ++ r) →
      ((pre ++ (kc, vc) :: post).map Prod.fst).Nodup →
      (∀ p ∈ pre, e (trimFileMarker p.1) = none ∧ (fs p.2).isSome) →
      (e (trimFileMarker kc)).isSome →
      (mapEnvironmentFiles fs (pre ++ (kc, vc) :: post) e).isErr = true ∧
      (mapEnvironmentFiles fs (pre ++ (kc, vc) :: post) e).snapshots = [] ∧
      (mapEnvironmentFiles fs (pre ++ (kc, vc) :: post) e).errMsg =
        some ("environment variable " ++ trimFileMarker kc ++ " is set, while file option "
          ++ kc ++ " is also set") ∧
      (mapEnvironmentFiles fs (pre ++ (kc, vc) :: post) e).envOut kc = none ∧
      (∀ p ∈ pre,
        (mapEnvironmentFiles fs (pre ++ (kc, vc) :: post) e).envOut p.1 = none ∧
        (mapEnvironmentFiles fs (pre ++ (kc, vc) :: post) e).envOut
          (trimFileMarker p.1) = fs p.2) ∧
      (∀ q, (∀ p ∈ pre, q ≠ p.1 ∧ q ≠ trimFileMarker p.1) → q ≠ kc →
        (mapEnvironmentFiles fs (pre ++ (kc, vc) :: post) e).envOut q = e q)) := by
  constructor
  · intro e pre mc post hEq hpre hc hc2
    have hok : mappingNamesOkB (pre ++ mc :: post) = true := by
      rw [← hEq]
      decide
    simp only [mapLegacyVariables, hEq]
    exact mapLegacyGo_first_conflict pre mc post [] e hok hpre hc hc2
  · intro fs e pre kc vc post hpfx hnd hpre hcs
    simp only [mapEnvironmentFiles]
    exact mapEnvFilesGo_first_conflict pre kc vc post fs [] e hpfx hnd hpre hcs

/-- An environment in which the first table pair is cleanly overridable
(AWS_ACCESS_KEY_ID set, its canonical name unset) and the second pair
conflicts (both AWS_SECRET_ACCESS_KEY and its canonical name set). -/
def c2wEnv : Env := fun k =>
  if k = "AWS_ACCESS_KEY_ID" then some "ak"
  else if k = "AWS_SECRET_ACCESS_KEY" then some "sk"
  else if k = "OFFEN_STORAGE_AWS_SECRETACCESSKEY" then some "osk" else none

/-- An environment holding two FILE__OFFEN_ variables, the target of the
second one independently set. -/
def c2wFileEnv : Env := fun k =>
  if k = "FILE__OFFEN_STORAGE_AWS_SECRETACCESSKEY" then some "/run/secrets/aws"
  else if k = "FILE__OFFEN_BACKUP_FILENAME" then some "/run/secrets/name"
  else if k = "OFFEN_BACKUP_FILENAME" then some "x" else none

/-- A file system in which only the first indirection file is readable. -/
def c2wFs : String → Option String :=
  fun p => if p = "/run/secrets/aws" then some "s3cr3t" else none

/-- Witness for the amended claim C2: with the conflict on the second table
pair, the error is returned while the first pair's override persists
(AWS_ACCESS_KEY_ID unset, its canonical name set to the legacy value) and
the conflicting AWS_SECRET_ACCESS_KEY has been unset; likewise for a
conflict on the second of two file variables, where the first file override
persists. -/
theorem claim_C2_amended_witness :
    ((mapLegacyVariables c2wEnv).isErr = true ∧
      (mapLegacyVariables c2wEnv).envOut "AWS_SECRET_ACCESS_KEY" = none ∧
      c2wEnv "AWS_SECRET_ACCESS_KEY" = some "sk" ∧
      (mapLegacyVariables c2wEnv).envOut "AWS_ACCESS_KEY_ID" = none ∧
      (mapLegacyVariables c2wEnv).envOut "OFFEN_STORAGE_AWS_ACCESSKEYID" = some "ak") ∧
    ((mapEnvironmentFiles c2wFs
        [("FILE__OFFEN_STORAGE_AWS_SECRETACCESSKEY", "/run/secrets/aws"),
         ("FILE__OFFEN_BACKUP_FILENAME", "/run/secrets/name")] c2wFileEnv).isErr = true ∧
      (mapEnvironmentFiles c2wFs
        [("FILE__OFFEN_STORAGE_AWS_SECRETACCESSKEY", "/run/secrets/aws"),
         ("FILE__OFFEN_BACKUP_FILENAME", "/run/secrets/name")] c2wFileEnv).envOut
        "FILE__OFFEN_BACKUP_FILENAME" = none ∧
      (mapEnvironmentFiles c2wFs
        [("FILE__OFFEN_STORAGE_AWS_SECRETACCESSKEY", "/run/secrets/aws"),
         ("FILE__OFFEN_BACKUP_FILENAME", "/run/secrets/name")] c2wFileEnv).envOut
        "FILE__OFFEN_STORAGE_AWS_SECRETACCESSKEY" = none ∧
      (mapEnvironmentFiles c2wFs
        [("FILE__OFFEN_STORAGE_AWS_SECRETACCESSKEY", "/run/secrets/aws"),
         ("FILE__OFFEN_BACKUP_FILENAME", "/run/secrets/name")] c2wFileEnv).envOut
        "OFFEN_STORAGE_AWS_SECRETACCESSKEY" = some "s3cr3t") := by
  have h1 := claim_C2_amended.1 c2wEnv
    [⟨"AWS_ACCESS_KEY_ID", "OFFEN_STORAGE_AWS_ACCESSKEYID"⟩]
    ⟨"AWS_SECRET_ACCESS_KEY", "OFFEN_STORAGE_AWS_SECRETACCESSKEY"⟩
    [ ⟨ "AWS_SECRET_ACCESS_KEY_FILE", "FILE__OFFEN_STORAGE_AWS_SECRETACCESSKEY"⟩,
      ⟨ "AWS_ENDPOINT", "OFFEN_STORAGE_AWS_ENDPOINT"⟩,
      ⟨ "AWS_ENDPOINT_PROTO", "OFFEN_STORAGE_AWS_ENDPOINTPROTO"⟩,
      ⟨ "AWS_S3_BUCKET_NAME", "OFFEN_STORAGE_AWS_BUCKETNAME"⟩,
      ⟨ "BACKUP_FILENAME_EXPAND", "OFFEN_BACKUP_FILENAMEEXPAND"⟩,
      ⟨ "BACKUP_FILENAME", "OFFEN_BACKUP_FILENAME"⟩,
      ⟨ "BACKUP_CRON_EXPRESSION", "OFFEN_BACKUP_CRONEXPRESSION"⟩,
      ⟨ "BACKUP_RETENTION_DAYS", "OFFEN_BACKUP_RETENTIONDAYS"⟩,
      ⟨ "BACKUP_PRUNING_LEEWAY", "OFFEN_BACKUP_PRUNINGLEEWAY"⟩,
      ⟨ "BACKUP_PRUNING_PREFIX", "OFFEN_BACKUP_PRUNINGPREFIX"⟩ ]
    rfl (by decide) (by decide) (by decide)
  have h2 := claim_C2_amended.2 c2wFs c2wFileEnv
    [("FILE__OFFEN_STORAGE_AWS_SECRETACCESSKEY", "/run/secrets/aws")]
    "FILE__OFFEN_BACKUP_FILENAME" "/run/secrets/name" []
    (by
      intro p hp
      rcases List.mem_cons.mp hp with rfl | hp2
      · exact ⟨"STORAGE_AWS_SECRETACCESSKEY", rfl⟩
      · rcases List.mem_cons.mp hp2 with rfl | hp3
        · exact ⟨"BACKUP_FILENAME", rfl⟩
        · exact absurd hp3 (List.not_mem_nil p))
    (by decide) (by decide) (by decide)
  refine ⟨⟨h1.1, h1.2.2.2.1, by decide, ?_, ?_⟩, ⟨h2.1, h2.2.2.2.1, ?_, ?_⟩⟩
  · exact (h1.2.2.2.2.1 ⟨"AWS_ACCESS_KEY_ID", "OFFEN_STORAGE_AWS_ACCESSKEYID"⟩
      (by simp) "ak" (by decide)).1
  · exact (h1.2.2.2.2.1 ⟨"AWS_ACCESS_KEY_ID", "OFFEN_STORAGE_AWS_ACCESSKEYID"⟩
      (by simp) "ak" (by decide)).2
  · exact (h2.2.2.2.2.1 ("FILE__OFFEN_STORAGE_AWS_SECRETACCESSKEY", "/run/secrets/aws")
      (by simp)).1
  · exact ((h2.2.2.2.2.1 ("FILE__OFFEN_STORAGE_AWS_SECRETACCESSKEY", "/run/secrets/aws")
      (by simp)).2).trans (by decide)

/-- Claim C7: for a FILE__OFFEN_-prefixed variable holding a file path, a
mapEnvironmentFiles run over that variable fails exactly when the target
variable (the name with FILE__ stripped) is already set or the file cannot
be read; on success the indirection variable ends up unset, the target
variable holds the file contents, and every other variable is untouched. -/
theorem claim_C7_file_indirection (fs : String → Option String) (k v : String) (e : Env)
    (hpfx : ∃ r, k = "FILE__OFFEN_" ++ r) :
    ((mapEnvironmentFiles fs [(k, v)] e).isErr = true ↔
      (e (trimFileMarker k)).isSome ∨ fs v = none) ∧
    (∀ l e2, mapEnvironmentFiles fs [(k, v)] e = .ok l e2 →
      e2 k = none ∧ e2 (trimFileMarker k) = fs v ∧
      ∀ q, q ≠ k → q ≠ trimFileMarker k → e2 q = e q) := by
  obtain ⟨r, rfl⟩ := hpfx
  have hne := trimFileMarker_ne r
  have hu : unsetEnv e ("FILE__OFFEN_" ++ r) (trimFileMarker ("FILE__OFFEN_" ++ r)) =
      e (trimFileMarker ("FILE__OFFEN_" ++ r)) := unsetEnv_ne e _ _ hne
  simp only [mapEnvironmentFiles, mapEnvironmentFilesGo, hu]
  cases h : e (trimFileMarker ("FILE__OFFEN_" ++ r)) with
  | some w => simp [MapResult.isErr]
  | none =>
    cases hf : fs v with
    | none => simp [MapResult.isErr]
    | some c =>
      refine ⟨by simp [MapResult.isErr], ?_⟩
      intro l e2 heq
      cases heq
      refine ⟨?_, ?_, ?_⟩
      · rw [setEnv_ne _ _ _ _ (fun hx => hne hx.symm)]
        simp [unsetEnv]
      · simp [setEnv]
      · intro q hqk hqt
        rw [setEnv_ne _ _ _ _ hqt, unsetEnv_ne _ _ _ hqk]

/-- Witness for claim C7: a concrete successful file-indirection run, the
indirection variable ends up unset and the target holds the file contents. -/
theorem claim_C7_file_indirection_witness :
    (mapEnvironmentFiles c7Fs [(c7Key, "/run/secrets/aws")] c7Env).isErr = false ∧
    (mapEnvironmentFiles c7Fs [(c7Key, "/run/secrets/aws")] c7Env).envOut c7Key = none ∧
    (mapEnvironmentFiles c7Fs [(c7Key, "/run/secrets/aws")] c7Env).envOut
      (trimFileMarker c7Key) = some "s3cr3t" := by
  have h := claim_C7_file_indirection c7Fs c7Key "/run/secrets/aws" c7Env
    ⟨"STORAGE_AWS_SECRETACCESSKEY", rfl⟩
  have hres : mapEnvironmentFiles c7Fs [(c7Key, "/run/secrets/aws")] c7Env =
      .ok [⟨true, c7Key, "/run/secrets/aws"⟩, ⟨false, trimFileMarker c7Key, ""⟩]
        (setEnv (unsetEnv c7Env c7Key) (trimFileMarker c7Key) "s3cr3t") := rfl
  have h2 := h.2 _ _ hres
  refine ⟨by rw [hres]; rfl, ?_, ?_⟩
  · rw [hres]
    exact h2.1
  · rw [hres]
    show setEnv (unsetEnv c7Env c7Key) (trimFileMarker c7Key) "s3cr3t" (trimFileMarker c7Key)
      = some "s3cr3t"
    rw [h2.2.1]
    rfl

end DVB
